import Mathlib

/-!
Shallow embedding of the tktok-view repository: a client-side simulation that
animates a "view boosting" campaign.  The embedding covers

* `src/types.ts` (enums/records `BoostStatus`, `ServerNode`, `LogEntry`,
  `ViralAnalysis`),
* the constants file (`SERVER_NODES`, `VIEW_PRESETS`),
* the `App` component state and its handlers (`addLog`, the interval tick
  callback, `handleStartBoost`, `handleReset`, the analysis promise
  handlers, `getTikTokId`), and
* the analysis client `analyzeTikTokContent`.

JavaScript numbers that the program only ever uses as non-negative integers
(view counters, percentages, list indices) are embedded as `Nat`.
`Math.floor((nextVal / targetViews) * 100)` is evaluated in IEEE-754
binary64 arithmetic, which the embedding reproduces exactly (`jsProgress`):
the division is rounded to the nearest double (ties to even), the
multiplication by 100 is rounded again, and the floor is taken of the
resulting dyadic rational; this differs from the exact
`nextVal * 100 / targetViews` at some inputs.  Calls to `Math.random()` are
embedded as explicit parameters: each tick receives a `TickRand` record
holding the drawn values (the rotation coin flip, the rotation index, and
the raw draws for the latency and the view increment).  Wall-clock
timestamps (`new Date().toLocaleTimeString(...)`) are embedded as an
explicit `now : String` parameter.  The fallible array access
`availableServers[...]` is embedded with `List.getElem?`, so a tick returns
`Option AppState` and `none` models the out-of-range access crash.
-/

/-- Embeds the `BoostStatus` enum of `src/types.ts`. -/
inductive BoostStatus where
  | IDLE
  | PROCESSING
  | COMPLETED
  | ERROR
deriving DecidableEq, Repr

/-- Embeds the `ServerNode` interface of `src/types.ts`; the cosmetic
`status` field (`online`/`busy`/`offline`) is kept as a string. -/
structure ServerNode where
  id : String
  name : String
  region : String
  status : String
  load : Nat
deriving DecidableEq, Repr

/-- Embeds the `type` field of `LogEntry` (string union in the source). -/
inductive LogType where
  | info
  | success
  | warning
  | error
deriving DecidableEq, Repr

/-- Embeds the `LogEntry` interface of `src/types.ts`. -/
structure LogEntry where
  timestamp : String
  message : String
  type : LogType
deriving DecidableEq, Repr

/-- Embeds the `ViralAnalysis` interface of `src/types.ts`; the JSON
`score` number is embedded as `Int`. -/
structure ViralAnalysis where
  score : Int
  recommendations : List String
  estimatedReach : String
deriving DecidableEq, Repr

/-- Embeds the static `SERVER_NODES` registry of the constants file. -/
def SERVER_NODES : List ServerNode :=
  [ { id := "us-east-1", name := "Phoenix-Alpha", region := "North America", status := "online", load := 45 },
    { id := "eu-west-1", name := "Berlin-Beta", region := "Europe", status := "online", load := 12 },
    { id := "ap-southeast-1", name := "Singapore-Gamma", region := "Asia Pacific", status := "online", load := 88 },
    { id := "br-south-1", name := "Sao-Paulo-Delta", region := "South America", status := "busy", load := 95 },
    { id := "jp-tokyo-1", name := "Tokyo-Epsilon", region := "East Asia", status := "online", load := 22 } ]

/-- Embeds `VIEW_PRESETS` of the constants file. -/
def VIEW_PRESETS : List Nat := [500, 1000, 5000, 10000]

/-- Embeds `String.prototype.includes`: the pattern occurs contiguously in
the subject string. -/
def stringIncludes (s pat : String) : Bool := decide (pat.data <:+: s.data)

/-- Scanning helper for `getTikTokId`: at each position of the character
list, test for the literal `/video/` followed by at least one digit, as the
regex `\/video\/(\d+)` does, and return the digit run of the first match. -/
def getTikTokIdAux : List Char → Option String
  | [] => none
  | c :: cs =>
    if ("/video/".data).isPrefixOf (c :: cs) then
      let ds := ((c :: cs).drop 7).takeWhile Char.isDigit
      if ds.isEmpty then getTikTokIdAux cs else some (String.mk ds)
    else getTikTokIdAux cs

/-- Embeds the `getTikTokId` helper of the `App` component
(`url.match(/\/video\/(\d+)/)`, returning the captured digit group or
`null`). -/
def getTikTokId (url : String) : Option String :=
  getTikTokIdAux url.data

/-- Embeds `addLog` of the `App` component: append the new entry and keep
the last 100 entries (`[...prev, newLog].slice(-100)`). -/
def addLog (logs : List LogEntry) (now message : String) (type : LogType) : List LogEntry :=
  let l := logs ++ [{ timestamp := now, message := message, type := type }]
  l.drop (l.length - 100)

/-- Embeds the React state of the `App` component.  The `logsEndRef`
scroll anchor is display-only and omitted. -/
structure AppState where
  videoUrl : String
  targetViews : Nat
  currentViews : Nat
  status : BoostStatus
  logs : List LogEntry
  activeServer : ServerNode
  analysis : Option ViralAnalysis
  isAnalyzing : Bool
  progress : Nat
deriving DecidableEq, Repr

/-- Embeds the initial `useState` values of the `App` component
(`activeServer` starts as `SERVER_NODES[0]`). -/
def initialState : AppState :=
  { videoUrl := ""
    targetViews := 500
    currentViews := 0
    status := BoostStatus.IDLE
    logs := []
    activeServer := SERVER_NODES.head (by decide)
    analysis := none
    isAnalyzing := false
    progress := 0 }

/-- Embeds the URL validation of `handleStartBoost`:
`!videoUrl || !videoUrl.includes('tiktok.com')` is the rejection
condition, so a URL is valid when it is non-empty and contains the
`tiktok.com` marker. -/
def validUrl (u : String) : Bool := u != "" && stringIncludes u "tiktok.com"

/-- The random draws of one interval tick, as explicit values:
`rotate` is `Math.random() > 0.85`, `rotPick` is
`Math.floor(Math.random() * availableServers.length)`, `latency` is the
raw draw of `Math.floor(Math.random() * 100 + 20)` (the message shows
`latency + 20`), `incR` is the raw draw of
`Math.floor(Math.random() * 25)` (the increment is `incR + 10`), and
`now` is the formatted wall-clock timestamp of the tick. -/
structure TickRand where
  rotate : Bool
  rotPick : Nat
  latency : Fin 100
  incR : Fin 25
  now : String

/-- Embeds `SERVER_NODES.filter(s => s.id !== activeServer.id)` from the
tick callback. -/
def availableServers (s : AppState) : List ServerNode :=
  SERVER_NODES.filter (fun n => n.id != s.activeServer.id)

/-- The completion log message of the tick callback.  The association of
the appends keeps the interpolated target count and node count visible. -/
def successMessage (t : Nat) : String :=
  "Task successful: " ++ (toString t ++ (" views distributed across " ++ (toString SERVER_NODES.length ++ " nodes.")))

/-- The handoff log message of the tick callback. -/
def handoffMessage (n : ServerNode) (lat : Nat) : String :=
  "Handoff to " ++ n.name ++ " (" ++ n.region ++ ") - Latency: " ++ toString lat ++ "ms"

/-- Round to nearest, ties to even: the integer nearest to `num / den`. -/
def rne (num den : Nat) : Nat :=
  let q := num / den
  let r := num % den
  if 2 * r < den then q
  else if den < 2 * r then q + 1
  else if q % 2 = 0 then q else q + 1

/-- Smallest number k of doublings with `t * 2^52 ≤ a * 2^k`, searched
within the given fuel (callers pass enough fuel for the search to end). -/
def upSteps (t : Nat) : Nat → Nat → Nat
  | 0, _ => 0
  | fuel + 1, a => if t * 2 ^ 52 ≤ a then 0 else upSteps t fuel (2 * a) + 1

/-- Number of halvings that bring `a` below `2^53`, within the fuel. -/
def downSteps : Nat → Nat → Nat
  | 0, _ => 0
  | fuel + 1, a => if a < 2 ^ 53 then 0 else downSteps fuel (a / 2) + 1

/-- The IEEE-754 binary64 value nearest to `n / t` for `0 < n ≤ t`, as a
pair `(m, k)` of value `m / 2^k` with normalized 53-bit significand
(`2^52 ≤ m < 2^53`): the exponent search scales the quotient into the
significand range, the significand is rounded to nearest with ties to
even, and a carry into `2^53` renormalizes.  The exponent range is not
bounded below, so gradual underflow is not modelled; the quotients the
program computes are nowhere near the subnormal range. -/
def divDouble (n t : Nat) : Nat × Nat :=
  let k := upSteps t (t + 53) n
  let m := rne (n * 2 ^ k) t
  if m = 2 ^ 53 then (2 ^ 52, k - 1) else (m, k)

/-- The value of `Math.floor((n / t) * 100)` under IEEE-754 binary64
arithmetic, for `n ≤ t` (the program only evaluates it on such pairs):
the division result is rounded to the nearest double, the multiplication
by 100 is rounded again (with renormalization on a carry), and the floor
of the resulting dyadic rational is exact integer division by the final
power of two.  For `n = 0` the result is exactly 0, as in JavaScript; for
`t = 0` JavaScript would produce NaN, but the tick callback never divides
by a zero target (the completion branch fires first), so that branch
carries the junk value 0. -/
def jsProgress (n t : Nat) : Nat :=
  if t = 0 then 0
  else if n = 0 then 0
  else
    let (m, k) := divDouble n t
    let p := 100 * m
    let j := downSteps 64 p
    let m2 := rne p (2 ^ j)
    if m2 = 2 ^ 53 then 2 ^ 52 / 2 ^ (k - (j + 1)) else m2 / 2 ^ (k - j)

/-- The increment part of the tick callback:
`increment = Math.floor(Math.random() * 25) + 10`,
`nextVal = Math.min(prev + increment, targetViews)`, then
`setProgress(Math.floor((nextVal / targetViews) * 100))`, the latter
evaluated in binary64 floating point (`jsProgress`). -/
def tickAdvance (s : AppState) (r : TickRand) : AppState :=
  let increment := r.incR.val + 10
  let nextVal := min (s.currentViews + increment) s.targetViews
  { s with currentViews := nextVal, progress := jsProgress nextVal s.targetViews }

/-- Embeds one firing of the interval callback installed by the
`useEffect` of the `App` component.  The interval exists only while
`status === PROCESSING` (the effect guard), so a tick in any other status
leaves the state unchanged.  If `prev >= targetViews` the callback clears
the interval, sets `COMPLETED`, logs the success message and returns
`targetViews`.  Otherwise, with the drawn coin, it rotates the active
server to `availableServers[rotPick]` (logging the handoff), then advances
the counter.  A `none` result models the crash of an out-of-range
`availableServers[rotPick]` access. -/
def tick (s : AppState) (r : TickRand) : Option AppState :=
  if s.status = BoostStatus.PROCESSING then
    if s.targetViews ≤ s.currentViews then
      some { s with status := BoostStatus.COMPLETED
                    logs := addLog s.logs r.now (successMessage s.targetViews) LogType.success
                    currentViews := s.targetViews }
    else if r.rotate then
      match (availableServers s)[r.rotPick]? with
      | none => none
      | some nextServer =>
          some (tickAdvance
            { s with activeServer := nextServer
                     logs := addLog s.logs r.now (handoffMessage nextServer (r.latency.val + 20)) LogType.info } r)
    else some (tickAdvance s r)
  else some s

/-- Embeds `handleStartBoost` of the `App` component (its synchronous
part; the analysis promise resolution is the separate `resolveAnalysis`
and `rejectAnalysis` below).  Invalid URL: one error log entry, no other
change.  Valid URL: status `PROCESSING`, counters reset, analysis
cleared, three informational log entries, `isAnalyzing` set. -/
def handleStartBoost (s : AppState) (now : String) : AppState :=
  if validUrl s.videoUrl then
    { s with status := BoostStatus.PROCESSING
             currentViews := 0
             progress := 0
             analysis := none
             logs := addLog (addLog (addLog s.logs
               now "Initiating View Distribution Protocol..." LogType.info)
               now ("Targeting Resource ID: " ++ (getTikTokId s.videoUrl).getD "Generic_Stream") LogType.info)
               now ("Load balancing across " ++ toString SERVER_NODES.length ++ " global relay points.") LogType.info
             isAnalyzing := true }
  else
    { s with logs := addLog s.logs now "Invalid source: Please provide a valid TikTok video link." LogType.error }

/-- Embeds the `.then` handler of the analysis promise in
`handleStartBoost`. -/
def resolveAnalysis (s : AppState) (now : String) (res : ViralAnalysis) : AppState :=
  { s with analysis := some res
           isAnalyzing := false
           logs := addLog s.logs now "Content patterns analyzed. Viral score updated in dashboard." LogType.success }

/-- Embeds the `.catch` handler of the analysis promise in
`handleStartBoost`. -/
def rejectAnalysis (s : AppState) (now : String) : AppState :=
  { s with isAnalyzing := false
           logs := addLog s.logs now "Analysis module timed out. Proceeding with standard boost." LogType.warning }

/-- Embeds `handleReset` of the `App` component: back to `IDLE`, counters
zeroed, logs cleared, analysis cleared, then one informational entry. -/
def handleReset (s : AppState) (now : String) : AppState :=
  let s1 := { s with status := BoostStatus.IDLE
                     currentViews := 0
                     progress := 0
                     logs := []
                     analysis := none }
  { s1 with logs := addLog s1.logs now "Dashboard synchronized. Ready for next campaign." LogType.info }

/-- The parsed JSON object of the analysis response, field by field as the
response schema declares them; `none` models an absent field. -/
structure ParsedResponse where
  score : Option Int
  recommendations : Option (List String)
  estimatedReach : Option String

/-- The canned fallback of the `catch` branch of `analyzeTikTokContent`. -/
def fallbackAnalysis : ViralAnalysis :=
  { score := 0
    recommendations := ["Ensure high lighting", "Use trending sounds", "Post at peak hours"]
    estimatedReach := "N/A" }

/-- Embeds `analyzeTikTokContent` of `services/geminiService.ts`.  The
network call and `JSON.parse` are embedded as the `outcome` parameter: an
`Except.error` is any thrown failure (network or service error, or a
malformed/unparseable response body, which makes `JSON.parse` throw), an
`Except.ok` carries the parsed object.  On success each field is
defaulted as the JavaScript `||` does (`score || 0`,
`recommendations || []`, `estimatedReach || "Unknown"`, where an empty
string is falsy); on failure the canned fallback is returned and nothing
is rethrown. -/
def analyzeTikTokContent (videoUrl : String) (outcome : Except String ParsedResponse) : ViralAnalysis :=
  match outcome with
  | Except.error _ => fallbackAnalysis
  | Except.ok r =>
      { score := r.score.getD 0
        recommendations := r.recommendations.getD []
        estimatedReach :=
          match r.estimatedReach with
          | none => "Unknown"
          | some e => if e = "" then "Unknown" else e }

/-- Runs the tick callback over a list of random draws, stopping at a
crash. -/
def runTicks (s : AppState) : List TickRand → Option AppState
  | [] => some s
  | r :: rs =>
    match tick s r with
    | none => none
    | some s1 => runTicks s1 rs

/-- The first `k` draws of a random stream, in firing order. -/
def stream (f : Nat → TickRand) : Nat → List TickRand
  | 0 => []
  | k + 1 => f 0 :: stream (fun i => f (i + 1)) k

/-- The states of the `App` component reachable through its handlers.  The
URL and target inputs are disabled while `status === PROCESSING`, hence
the guards on `setUrl` and `setTarget`; the promise handlers may fire at
any later point. -/
inductive Reachable : AppState → Prop where
  | init : Reachable initialState
  | setUrl {s : AppState} (u : String) :
      Reachable s → s.status ≠ BoostStatus.PROCESSING → Reachable { s with videoUrl := u }
  | setTarget {s : AppState} (t : Nat) :
      Reachable s → s.status ≠ BoostStatus.PROCESSING → Reachable { s with targetViews := t }
  | start {s : AppState} (now : String) :
      Reachable s → Reachable (handleStartBoost s now)
  | doTick {s s' : AppState} (r : TickRand) :
      Reachable s → tick s r = some s' → Reachable s'
  | reset {s : AppState} (now : String) :
      Reachable s → Reachable (handleReset s now)
  | analysisOk {s : AppState} (now : String) (res : ViralAnalysis) :
      Reachable s → Reachable (resolveAnalysis s now res)
  | analysisErr {s : AppState} (now : String) :
      Reachable s → Reachable (rejectAnalysis s now)

/-! Helper lemmas about the log buffer. -/

lemma addLog_length_le (logs : List LogEntry) (now m : String) (t : LogType) :
    (addLog logs now m t).length ≤ 100 := by
  simp [addLog]
  omega

lemma addLog_isSuffix (logs : List LogEntry) (now m : String) (t : LogType) :
    (addLog logs now m t) <:+ (logs ++ [{ timestamp := now, message := m, type := t }]) := by
  unfold addLog
  exact List.drop_suffix _ _

lemma addLog_eq_append (logs : List LogEntry) (now m : String) (t : LogType)
    (h : logs.length ≤ 99) :
    addLog logs now m t = logs ++ [{ timestamp := now, message := m, type := t }] := by
  have hz : logs.length + 1 - 100 = 0 := by omega
  simp [addLog, hz]

lemma addLog_getLast (logs : List LogEntry) (now m : String) (t : LogType) :
    (addLog logs now m t).getLast? = some { timestamp := now, message := m, type := t } := by
  simp only [addLog, List.length_append, List.length_singleton]
  rw [List.drop_append_of_le_length (by omega)]
  simp

/-! Helper lemmas about the static registry. -/

lemma filter_servers_length : ∀ a ∈ SERVER_NODES,
    (SERVER_NODES.filter (fun n => n.id != a.id)).length = 4 := by decide

lemma availableServers_length {s : AppState} (h : s.activeServer ∈ SERVER_NODES) :
    (availableServers s).length = 4 :=
  filter_servers_length s.activeServer h

lemma mem_of_avail {s : AppState} {i : Nat} {n : ServerNode}
    (h : (availableServers s)[i]? = some n) : n ∈ SERVER_NODES := by
  rw [List.getElem?_eq_some_iff] at h
  obtain ⟨hi, he⟩ := h
  exact List.mem_of_mem_filter (he ▸ List.getElem_mem hi)

lemma id_ne_of_avail {s : AppState} {i : Nat} {n : ServerNode}
    (h : (availableServers s)[i]? = some n) : n.id ≠ s.activeServer.id := by
  rw [List.getElem?_eq_some_iff] at h
  obtain ⟨hi, he⟩ := h
  have hm : n ∈ availableServers s := he ▸ List.getElem_mem hi
  have := List.of_mem_filter hm
  simpa using this

/-! Characterizations of one tick. -/

lemma tick_not_processing {s : AppState} (r : TickRand)
    (h : s.status ≠ BoostStatus.PROCESSING) : tick s r = some s := by
  simp [tick, h]

lemma tick_done {s : AppState} (r : TickRand)
    (hst : s.status = BoostStatus.PROCESSING) (hd : s.targetViews ≤ s.currentViews) :
    tick s r = some { s with status := BoostStatus.COMPLETED
                             logs := addLog s.logs r.now (successMessage s.targetViews) LogType.success
                             currentViews := s.targetViews } := by
  simp [tick, hst, hd]

lemma tick_norot {s : AppState} {r : TickRand}
    (hst : s.status = BoostStatus.PROCESSING) (hd : ¬ s.targetViews ≤ s.currentViews)
    (hr : r.rotate = false) : tick s r = some (tickAdvance s r) := by
  simp [tick, hst, hd, hr]

lemma tick_rot {s : AppState} {r : TickRand} {next : ServerNode}
    (hst : s.status = BoostStatus.PROCESSING) (hd : ¬ s.targetViews ≤ s.currentViews)
    (hr : r.rotate = true) (hget : (availableServers s)[r.rotPick]? = some next) :
    tick s r = some (tickAdvance
      { s with activeServer := next
               logs := addLog s.logs r.now (handoffMessage next (r.latency.val + 20)) LogType.info } r) := by
  simp [tick, hst, hd, hr, hget]

lemma jsProgress_zero (t : Nat) : jsProgress 0 t = 0 := by
  unfold jsProgress
  split
  · rfl
  · rfl

/-- The inductive invariant of the component state: the active server is a
registry node, the log buffer is bounded, the `ERROR` status is never
assigned, and while `PROCESSING` the counter is capped by the target and
the progress percentage matches the counter (as the program computes it,
in binary64). -/
def StateInv (s : AppState) : Prop :=
  s.activeServer ∈ SERVER_NODES ∧
  s.logs.length ≤ 100 ∧
  s.status ≠ BoostStatus.ERROR ∧
  (s.status = BoostStatus.PROCESSING →
    s.currentViews ≤ s.targetViews ∧ s.progress = jsProgress s.currentViews s.targetViews)

lemma inv_init : StateInv initialState := by
  refine ⟨by decide, by decide, by decide, ?_⟩
  intro h
  exact absurd h (by decide)

set_option maxRecDepth 4000 in
lemma inv_start {s : AppState} (now : String) (h : StateInv s) : StateInv (handleStartBoost s now) := by
  obtain ⟨hact, hlog, herr, hproc⟩ := h
  unfold handleStartBoost
  split
  · refine ⟨hact, addLog_length_le _ _ _ _, ?_, ?_⟩
    · show BoostStatus.PROCESSING ≠ BoostStatus.ERROR
      decide
    · intro _
      refine ⟨Nat.zero_le _, ?_⟩
      show (0 : Nat) = jsProgress 0 s.targetViews
      exact (jsProgress_zero _).symm
  · exact ⟨hact, addLog_length_le _ _ _ _, herr, hproc⟩

lemma inv_reset {s : AppState} (now : String) (h : StateInv s) : StateInv (handleReset s now) := by
  obtain ⟨hact, hlog, herr, hproc⟩ := h
  refine ⟨hact, addLog_length_le _ _ _ _, by simp [handleReset], ?_⟩
  intro hcontra
  exact absurd hcontra (by simp [handleReset])

lemma inv_resolveAnalysis {s : AppState} (now : String) (res : ViralAnalysis) (h : StateInv s) :
    StateInv (resolveAnalysis s now res) := by
  obtain ⟨hact, hlog, herr, hproc⟩ := h
  exact ⟨hact, addLog_length_le _ _ _ _, herr, hproc⟩

lemma inv_rejectAnalysis {s : AppState} (now : String) (h : StateInv s) :
    StateInv (rejectAnalysis s now) := by
  obtain ⟨hact, hlog, herr, hproc⟩ := h
  exact ⟨hact, addLog_length_le _ _ _ _, herr, hproc⟩

lemma inv_tickAdvance {s : AppState} (r : TickRand)
    (hact : s.activeServer ∈ SERVER_NODES) (hlog : s.logs.length ≤ 100)
    (hst : s.status = BoostStatus.PROCESSING) : StateInv (tickAdvance s r) := by
  refine ⟨hact, hlog, by simp [tickAdvance, hst], ?_⟩
  intro _
  exact ⟨min_le_right _ _, rfl⟩

lemma inv_tick {s s' : AppState} {r : TickRand} (h : StateInv s) (ht : tick s r = some s') :
    StateInv s' := by
  obtain ⟨hact, hlog, herr, hproc⟩ := h
  by_cases hst : s.status = BoostStatus.PROCESSING
  · by_cases hd : s.targetViews ≤ s.currentViews
    · rw [tick_done r hst hd] at ht
      cases ht
      refine ⟨hact, addLog_length_le _ _ _ _, by simp, ?_⟩
      intro hcontra
      exact absurd hcontra (by simp)
    · by_cases hr : r.rotate = true
      · rcases hget : (availableServers s)[r.rotPick]? with _ | next
        · rw [tick, if_pos hst, if_neg hd, if_pos hr, hget] at ht
          exact absurd ht (by simp)
        · rw [tick_rot hst hd hr hget] at ht
          cases ht
          exact inv_tickAdvance r (mem_of_avail hget) (addLog_length_le _ _ _ _) hst
      · rw [tick_norot hst hd (by simpa using hr)] at ht
        cases ht
        exact inv_tickAdvance r hact hlog hst
  · rw [tick_not_processing r hst] at ht
    cases ht
    exact ⟨hact, hlog, herr, hproc⟩

lemma inv_setUrl {s : AppState} (u : String) (h : StateInv s) : StateInv { s with videoUrl := u } := h

lemma inv_setTarget {s : AppState} (t : Nat) (h : StateInv s)
    (hst : s.status ≠ BoostStatus.PROCESSING) : StateInv { s with targetViews := t } := by
  obtain ⟨hact, hlog, herr, _⟩ := h
  exact ⟨hact, hlog, herr, fun hc => absurd hc hst⟩

lemma reachable_inv {s : AppState} (h : Reachable s) : StateInv s := by
  induction h with
  | init => exact inv_init
  | setUrl u _ _ ih => exact inv_setUrl u ih
  | setTarget t _ hne ih => exact inv_setTarget t ih hne
  | start now _ ih => exact inv_start now ih
  | doTick r _ ht ih => exact inv_tick ih ht
  | reset now _ ih => exact inv_reset now ih
  | analysisOk now res _ ih => exact inv_resolveAnalysis now res ih
  | analysisErr now _ ih => exact inv_rejectAnalysis now ih

/-! Evolution of the counter over ticks. -/

lemma tickAdvance_fields (s : AppState) (r : TickRand) :
    (tickAdvance s r).currentViews = min (s.currentViews + (r.incR.val + 10)) s.targetViews ∧
    (tickAdvance s r).targetViews = s.targetViews ∧
    (tickAdvance s r).status = s.status ∧
    (tickAdvance s r).activeServer = s.activeServer := by
  exact ⟨rfl, rfl, rfl, rfl⟩

lemma tick_counter {s s' : AppState} {r : TickRand}
    (hc : s.currentViews ≤ s.targetViews) (ht : tick s r = some s') :
    s.currentViews ≤ s'.currentViews ∧ s'.currentViews ≤ s'.targetViews ∧
    s'.targetViews = s.targetViews := by
  by_cases hst : s.status = BoostStatus.PROCESSING
  · by_cases hd : s.targetViews ≤ s.currentViews
    · rw [tick_done r hst hd] at ht
      cases ht
      exact ⟨hc, Nat.le_refl _, rfl⟩
    · by_cases hr : r.rotate = true
      · rcases hget : (availableServers s)[r.rotPick]? with _ | next
        · rw [tick, if_pos hst, if_neg hd, if_pos hr, hget] at ht
          exact absurd ht (by simp)
        · rw [tick_rot hst hd hr hget] at ht
          cases ht
          refine ⟨le_min (Nat.le_add_right _ _) (Nat.le_of_lt (Nat.lt_of_not_le hd)), min_le_right _ _, rfl⟩
      · rw [tick_norot hst hd (by simpa using hr)] at ht
        cases ht
        refine ⟨le_min (Nat.le_add_right _ _) (Nat.le_of_lt (Nat.lt_of_not_le hd)), min_le_right _ _, rfl⟩
  · rw [tick_not_processing r hst] at ht
    cases ht
    exact ⟨Nat.le_refl _, hc, rfl⟩

lemma runTicks_counter : ∀ (L : List TickRand) (s s' : AppState),
    s.currentViews ≤ s.targetViews → runTicks s L = some s' →
    s.currentViews ≤ s'.currentViews ∧ s'.currentViews ≤ s'.targetViews ∧
    s'.targetViews = s.targetViews := by
  intro L
  induction L with
  | nil =>
    intro s s' hc h
    cases h
    exact ⟨Nat.le_refl _, hc, rfl⟩
  | cons r rs ih =>
    intro s s' hc h
    unfold runTicks at h
    rcases ht : tick s r with _ | s1
    · rw [ht] at h
      exact absurd h (by simp)
    · rw [ht] at h
      obtain ⟨h1, h2, h3⟩ := tick_counter hc ht
      obtain ⟨h4, h5, h6⟩ := ih s1 s' h2 h
      exact ⟨Nat.le_trans h1 h4, h5, h6.trans h3⟩

/-! Termination of the tick loop. -/

lemma complete_in_one (s : AppState) (f : Nat → TickRand)
    (hst : s.status = BoostStatus.PROCESSING) (hd : s.targetViews ≤ s.currentViews) :
    ∃ s', runTicks s (stream f 1) = some s' ∧
      s'.status = BoostStatus.COMPLETED ∧ s'.currentViews = s.targetViews ∧
      ∃ e, s'.logs.getLast? = some e ∧ e.message = successMessage s.targetViews ∧
        e.type = LogType.success := by
  refine ⟨{ s with status := BoostStatus.COMPLETED
                   logs := addLog s.logs (f 0).now (successMessage s.targetViews) LogType.success
                   currentViews := s.targetViews }, ?_, rfl, rfl,
          _, addLog_getLast _ _ _ _, rfl, rfl⟩
  show runTicks s (f 0 :: stream (fun i => f (i + 1)) 0) = some _
  unfold runTicks
  rw [tick_done (f 0) hst hd]
  rfl

lemma run_completes (m : Nat) : ∀ (s : AppState) (f : Nat → TickRand),
    s.status = BoostStatus.PROCESSING →
    s.currentViews ≤ s.targetViews →
    s.targetViews - s.currentViews ≤ m →
    s.activeServer ∈ SERVER_NODES →
    (∀ i, (f i).rotPick < 4) →
    ∃ k s', runTicks s (stream f k) = some s' ∧
      s'.status = BoostStatus.COMPLETED ∧ s'.currentViews = s.targetViews ∧
      ∃ e, s'.logs.getLast? = some e ∧ e.message = successMessage s.targetViews ∧
        e.type = LogType.success := by
  induction m with
  | zero =>
    intro s f hst hc hm _ _
    obtain ⟨s', h1, h2, h3, h4⟩ := complete_in_one s f hst (by omega)
    exact ⟨1, s', h1, h2, h3, h4⟩
  | succ m ih =>
    intro s f hst hc hm hact hpick
    by_cases hd : s.targetViews ≤ s.currentViews
    · obtain ⟨s', h1, h2, h3, h4⟩ := complete_in_one s f hst hd
      exact ⟨1, s', h1, h2, h3, h4⟩
    · have hstep : ∃ s1, tick s (f 0) = some s1 ∧ s1.status = BoostStatus.PROCESSING ∧
          s1.targetViews = s.targetViews ∧ s.currentViews < s1.currentViews ∧
          s1.currentViews ≤ s1.targetViews ∧ s1.activeServer ∈ SERVER_NODES := by
        by_cases hr : (f 0).rotate = true
        · have hlen : (availableServers s).length = 4 := availableServers_length hact
          have hlt : (f 0).rotPick < (availableServers s).length := by
            rw [hlen]
            exact hpick 0
          have hget : (availableServers s)[(f 0).rotPick]? =
              some ((availableServers s)[(f 0).rotPick]) := List.getElem?_eq_getElem hlt
          refine ⟨_, tick_rot hst hd hr hget, hst, rfl, ?_, ?_, mem_of_avail hget⟩
          · show s.currentViews < min (s.currentViews + ((f 0).incR.val + 10)) s.targetViews
            omega
          · show min (s.currentViews + ((f 0).incR.val + 10)) s.targetViews ≤ s.targetViews
            omega
        · refine ⟨_, tick_norot hst hd (by simpa using hr), hst, rfl, ?_, ?_, hact⟩
          · show s.currentViews < min (s.currentViews + ((f 0).incR.val + 10)) s.targetViews
            omega
          · show min (s.currentViews + ((f 0).incR.val + 10)) s.targetViews ≤ s.targetViews
            omega
      obtain ⟨s1, ht1, hst1, htv1, hlt1, hc1, hact1⟩ := hstep
      obtain ⟨k, s', hrun, h2, h3, h4⟩ := ih s1 (fun i => f (i + 1)) hst1 hc1
        (by omega) hact1 (fun i => hpick (i + 1))
      refine ⟨k + 1, s', ?_, h2, h3.trans htv1, htv1 ▸ h4⟩
      show runTicks s (f 0 :: stream (fun i => f (i + 1)) k) = some s'
      unfold runTicks
      rw [ht1]
      exact hrun

/-! Characterization of a valid start. -/

lemma handleStartBoost_valid {s : AppState} (now : String) (h : validUrl s.videoUrl = true) :
    (handleStartBoost s now).status = BoostStatus.PROCESSING ∧
    (handleStartBoost s now).currentViews = 0 ∧
    (handleStartBoost s now).progress = 0 ∧
    (handleStartBoost s now).analysis = none ∧
    (handleStartBoost s now).targetViews = s.targetViews ∧
    (handleStartBoost s now).activeServer = s.activeServer := by
  unfold handleStartBoost
  rw [if_pos h]
  exact ⟨rfl, rfl, rfl, rfl, rfl, rfl⟩

/-! Sample states and draws used by the witness theorems. -/

def sampleUrlState : AppState :=
  { initialState with videoUrl := "https://www.tiktok.com/@user/video/7123456789" }

def sampleStart : AppState := handleStartBoost sampleUrlState "12:00:00"

def sampleRand : TickRand :=
  { rotate := false, rotPick := 0, latency := 0, incR := 12, now := "12:00:01" }

def sampleRotRand : TickRand :=
  { rotate := true, rotPick := 0, latency := 5, incR := 3, now := "12:00:02" }

/-- C1: for every valid start with a positive target, the tick loop runs to
completion: after some number of ticks the counter equals the target, the
status is `COMPLETED`, and the last log entry is a success entry whose
message mentions the target count and the registry node count. -/
theorem start_then_ticks_reach_target (s0 : AppState) (now : String) (f : Nat → TickRand)
    (hurl : validUrl s0.videoUrl = true) (htgt : 0 < s0.targetViews)
    (hact : s0.activeServer ∈ SERVER_NODES)
    (hpick : ∀ i, (f i).rotPick < 4) :
    ∃ k s', runTicks (handleStartBoost s0 now) (stream f k) = some s' ∧
      s'.currentViews = s0.targetViews ∧ s'.status = BoostStatus.COMPLETED ∧
      ∃ e, s'.logs.getLast? = some e ∧ e.type = LogType.success ∧
        (∃ a b, e.message = a ++ (toString s0.targetViews ++ b)) ∧
        (∃ a b, e.message = a ++ (toString SERVER_NODES.length ++ b)) := by
  obtain ⟨h1, h2, h3, h4, h5, h6⟩ := handleStartBoost_valid now hurl
  obtain ⟨k, s', hrun, hcs, hcv, e, hlast, hmsg, htype⟩ :=
    run_completes s0.targetViews (handleStartBoost s0 now) f h1
      (by rw [h2]; exact Nat.zero_le _)
      (by rw [h2, h5]; omega)
      (by rw [h6]; exact hact) hpick
  refine ⟨k, s', hrun, by rw [hcv, h5], hcs, e, hlast, htype, ?_, ?_⟩
  · refine ⟨"Task successful: ",
      " views distributed across " ++ (toString SERVER_NODES.length ++ " nodes."), ?_⟩
    rw [hmsg, h5]
    rfl
  · refine ⟨"Task successful: " ++ (toString s0.targetViews ++ " views distributed across "),
      " nodes.", ?_⟩
    rw [hmsg, h5]
    show successMessage s0.targetViews = _
    unfold successMessage
    rw [String.append_assoc, String.append_assoc]

/-- Witness for C1 at a concrete valid start. -/
theorem start_then_ticks_reach_target_witness :
    validUrl sampleUrlState.videoUrl = true ∧ 0 < sampleUrlState.targetViews ∧
    ∃ k s', runTicks (handleStartBoost sampleUrlState "12:00:00")
        (stream (fun _ => sampleRand) k) = some s' ∧
      s'.currentViews = sampleUrlState.targetViews ∧ s'.status = BoostStatus.COMPLETED ∧
      ∃ e, s'.logs.getLast? = some e ∧ e.type = LogType.success ∧
        (∃ a b, e.message = a ++ (toString sampleUrlState.targetViews ++ b)) ∧
        (∃ a b, e.message = a ++ (toString SERVER_NODES.length ++ b)) :=
  ⟨by decide, by decide,
   start_then_ticks_reach_target sampleUrlState "12:00:00" (fun _ => sampleRand)
     (by decide) (by decide) (by decide) (fun _ => by show (0 : Nat) < 4; decide)⟩

/-- C2: while `PROCESSING` below the target, the new counter value is
`min(old + d, target)` for some increment `d` with `10 ≤ d ≤ 34`, every
such `d` arises from a possible draw, and over any run of ticks the counter
is non-decreasing and never exceeds the target. -/
theorem tick_increment_spec :
    (∀ (s : AppState) (r : TickRand) (s' : AppState),
        s.status = BoostStatus.PROCESSING → s.currentViews < s.targetViews →
        tick s r = some s' →
        ∃ d, 10 ≤ d ∧ d ≤ 34 ∧ s'.currentViews = min (s.currentViews + d) s.targetViews) ∧
    (∀ d, 10 ≤ d → d ≤ 34 → ∃ c : Fin 25, c.val + 10 = d) ∧
    (∀ (L : List TickRand) (s s' : AppState),
        s.currentViews ≤ s.targetViews → runTicks s L = some s' →
        s.currentViews ≤ s'.currentViews ∧ s'.currentViews ≤ s.targetViews) := by
  refine ⟨?_, ?_, ?_⟩
  · intro s r s' hst hlt ht
    have hd : ¬ s.targetViews ≤ s.currentViews := by omega
    by_cases hr : r.rotate = true
    · rcases hget : (availableServers s)[r.rotPick]? with _ | next
      · rw [tick, if_pos hst, if_neg hd, if_pos hr, hget] at ht
        exact absurd ht (by simp)
      · rw [tick_rot hst hd hr hget] at ht
        cases ht
        exact ⟨r.incR.val + 10, by omega, by have := r.incR.isLt; omega, rfl⟩
    · rw [tick_norot hst hd (by simpa using hr)] at ht
      cases ht
      exact ⟨r.incR.val + 10, by omega, by have := r.incR.isLt; omega, rfl⟩
  · intro d h1 h2
    refine ⟨⟨d - 10, by omega⟩, ?_⟩
    show d - 10 + 10 = d
    omega
  · intro L s s' hc h
    obtain ⟨h1, h2, h3⟩ := runTicks_counter L s s' hc h
    exact ⟨h1, by omega⟩

/-- Witness for C2 at a concrete processing state and draw. -/
theorem tick_increment_spec_witness :
    (∃ s', tick sampleStart sampleRand = some s' ∧
      ∃ d, 10 ≤ d ∧ d ≤ 34 ∧
        s'.currentViews = min (sampleStart.currentViews + d) sampleStart.targetViews) ∧
    (∃ c : Fin 25, c.val + 10 = 22) ∧
    (∃ s', runTicks sampleStart [sampleRand] = some s' ∧
      sampleStart.currentViews ≤ s'.currentViews ∧
      s'.currentViews ≤ sampleStart.targetViews) :=
  ⟨⟨_, rfl, tick_increment_spec.1 sampleStart sampleRand _ rfl (by decide) rfl⟩,
   tick_increment_spec.2.1 22 (by decide) (by decide),
   ⟨_, rfl, (tick_increment_spec.2.2 [sampleRand] sampleStart _ (by decide) rfl).1,
      (tick_increment_spec.2.2 [sampleRand] sampleStart _ (by decide) rfl).2⟩⟩

/-- Helper: a plain non-rotating tick draw with the given increment raw. -/
def incTick (i : Fin 25) : TickRand :=
  { rotate := false, rotPick := 0, latency := 0, incR := i, now := "12:00:05" }

lemma sampleStart_reachable : Reachable sampleStart :=
  Reachable.start "12:00:00" (Reachable.setUrl _ Reachable.init (by decide))

lemma runTicks_reachable : ∀ (L : List TickRand) {s s' : AppState},
    Reachable s → runTicks s L = some s' → Reachable s' := by
  intro L
  induction L with
  | nil =>
    intro s s' h hr
    cases hr
    exact h
  | cons r rs ih =>
    intro s s' h hr
    unfold runTicks at hr
    rcases ht : tick s r with _ | s1
    · rw [ht] at hr
      exact absurd hr (by simp)
    · rw [ht] at hr
      exact ih (Reachable.doTick r h ht) hr

/-- Counterexample to C3 as stated: at the reachable state with
`currentViews = 145` and `targetViews = 500` (five ticks after a valid
start, with increments 34 + 34 + 34 + 33 + 10) the program stores the
binary64 result `Math.floor((145 / 500) * 100) = 28` (in doubles
`(145 / 500) * 100 = 28.999999999999996`), while the exact
`floor(currentViews / targetViews * 100)` claimed by the spec is 29. -/
theorem progress_exact_floor_counterexample :
    ∃ s', runTicks sampleStart
        [incTick 24, incTick 24, incTick 24, incTick 23, incTick 0] = some s' ∧
      Reachable s' ∧ s'.status = BoostStatus.PROCESSING ∧
      0 < s'.targetViews ∧ s'.currentViews = 145 ∧ s'.targetViews = 500 ∧
      s'.progress = 28 ∧ s'.currentViews * 100 / s'.targetViews = 29 ∧
      s'.progress ≠ s'.currentViews * 100 / s'.targetViews := by
  have h : runTicks sampleStart
      [incTick 24, incTick 24, incTick 24, incTick 23, incTick 0] =
      some (tickAdvance (tickAdvance (tickAdvance (tickAdvance
        (tickAdvance sampleStart (incTick 24)) (incTick 24)) (incTick 24))
        (incTick 23)) (incTick 0)) := by rfl
  exact ⟨_, h, runTicks_reachable _ sampleStart_reachable h, rfl, by decide,
    by decide, by decide, by decide, by decide, by decide⟩

/-- C3 (amended): after every counter update the stored progress equals
the binary64 evaluation of `Math.floor((currentViews / targetViews) * 100)`
(`jsProgress`, two round-to-nearest-even roundings followed by an exact
floor) — after any tick fired from a reachable `PROCESSING` state with a
positive target, after any valid start, and after any reset.  The exact
`floor(currentViews * 100 / targetViews)` of the original claim differs at
some reachable states (see the counterexample). -/
theorem progress_matches_float_floor :
    (∀ (s : AppState) (r : TickRand) (s' : AppState),
        Reachable s → s.status = BoostStatus.PROCESSING → 0 < s.targetViews →
        tick s r = some s' →
        s'.progress = jsProgress s'.currentViews s'.targetViews) ∧
    (∀ (s : AppState) (now : String), validUrl s.videoUrl = true →
        (handleStartBoost s now).progress =
          jsProgress (handleStartBoost s now).currentViews (handleStartBoost s now).targetViews) ∧
    (∀ (s : AppState) (now : String),
        (handleReset s now).progress =
          jsProgress (handleReset s now).currentViews (handleReset s now).targetViews) := by
  refine ⟨?_, ?_, ?_⟩
  · intro s r s' hre hst _ ht
    obtain ⟨hc, hp⟩ := (reachable_inv hre).2.2.2 hst
    by_cases hd : s.targetViews ≤ s.currentViews
    · rw [tick_done r hst hd] at ht
      cases ht
      show s.progress = jsProgress s.targetViews s.targetViews
      rw [hp, Nat.le_antisymm hc hd]
    · by_cases hr : r.rotate = true
      · rcases hget : (availableServers s)[r.rotPick]? with _ | next
        · rw [tick, if_pos hst, if_neg hd, if_pos hr, hget] at ht
          exact absurd ht (by simp)
        · rw [tick_rot hst hd hr hget] at ht
          cases ht
          rfl
      · rw [tick_norot hst hd (by simpa using hr)] at ht
        cases ht
        rfl
  · intro s now h
    unfold handleStartBoost
    rw [if_pos h]
    show (0 : Nat) = jsProgress 0 s.targetViews
    exact (jsProgress_zero _).symm
  · intro s now
    show (0 : Nat) = jsProgress 0 s.targetViews
    exact (jsProgress_zero _).symm

/-- Witness for the amended C3 at a concrete reachable processing state,
a valid start, and a reset. -/
theorem progress_matches_float_floor_witness :
    (∃ s', tick sampleStart sampleRand = some s' ∧
      s'.progress = jsProgress s'.currentViews s'.targetViews) ∧
    (handleStartBoost sampleUrlState "12:00:00").progress =
      jsProgress (handleStartBoost sampleUrlState "12:00:00").currentViews
        (handleStartBoost sampleUrlState "12:00:00").targetViews ∧
    (handleReset initialState "12:05:00").progress =
      jsProgress (handleReset initialState "12:05:00").currentViews
        (handleReset initialState "12:05:00").targetViews :=
  ⟨⟨_, rfl, progress_matches_float_floor.1 sampleStart sampleRand _
      sampleStart_reachable rfl (by decide) rfl⟩,
   progress_matches_float_floor.2.1 sampleUrlState "12:00:00" (by decide),
   progress_matches_float_floor.2.2 initialState "12:05:00"⟩

/-- C4: a tick that performs a handoff selects its new active node from
the registry minus the current node, so the new id differs from the old
one, and every other registry node is reachable by some drawn index. -/
theorem rotation_never_selects_active :
    ∀ (s : AppState) (r : TickRand) (s' : AppState),
      s.status = BoostStatus.PROCESSING → s.currentViews < s.targetViews →
      r.rotate = true → tick s r = some s' →
      (s'.activeServer.id ≠ s.activeServer.id ∧ s'.activeServer ∈ SERVER_NODES) ∧
      (∀ n ∈ SERVER_NODES, n.id ≠ s.activeServer.id →
        ∃ i, i < (availableServers s).length ∧ (availableServers s)[i]? = some n) := by
  intro s r s' hst hlt hr ht
  have hd : ¬ s.targetViews ≤ s.currentViews := by omega
  rcases hget : (availableServers s)[r.rotPick]? with _ | next
  · rw [tick, if_pos hst, if_neg hd, if_pos hr, hget] at ht
    exact absurd ht (by simp)
  · rw [tick_rot hst hd hr hget] at ht
    cases ht
    refine ⟨⟨id_ne_of_avail hget, mem_of_avail hget⟩, ?_⟩
    intro n hn hne
    have hmem : n ∈ availableServers s := by
      rw [availableServers, List.mem_filter]
      exact ⟨hn, by simpa using hne⟩
    obtain ⟨i, hi, he⟩ := List.getElem_of_mem hmem
    exact ⟨i, hi, by rw [List.getElem?_eq_getElem hi, he]⟩

/-- Witness for C4 at a concrete rotating tick. -/
theorem rotation_never_selects_active_witness :
    ∃ s', tick sampleStart sampleRotRand = some s' ∧
      (s'.activeServer.id ≠ sampleStart.activeServer.id ∧
        s'.activeServer ∈ SERVER_NODES) ∧
      (∀ n ∈ SERVER_NODES, n.id ≠ sampleStart.activeServer.id →
        ∃ i, i < (availableServers sampleStart).length ∧
          (availableServers sampleStart)[i]? = some n) :=
  ⟨_, rfl, rotation_never_selects_active sampleStart sampleRotRand _
    rfl (by decide) rfl rfl⟩

/-- C5: a start with an invalid URL (empty or missing the `tiktok.com`
marker) changes no state field other than appending exactly one error log
entry; in particular the status, counters, progress and analysis are
untouched. -/
theorem invalid_start_only_logs :
    ∀ (s : AppState) (now : String), validUrl s.videoUrl = false →
      (handleStartBoost s now).status = s.status ∧
      (handleStartBoost s now).currentViews = s.currentViews ∧
      (handleStartBoost s now).progress = s.progress ∧
      (handleStartBoost s now).analysis = s.analysis ∧
      (handleStartBoost s now).targetViews = s.targetViews ∧
      (handleStartBoost s now).logs =
        addLog s.logs now "Invalid source: Please provide a valid TikTok video link." LogType.error ∧
      (s.logs.length ≤ 99 → (handleStartBoost s now).logs =
        s.logs ++ [{ timestamp := now
                     message := "Invalid source: Please provide a valid TikTok video link."
                     type := LogType.error }]) := by
  intro s now h
  unfold handleStartBoost
  rw [if_neg (by simp [h])]
  exact ⟨rfl, rfl, rfl, rfl, rfl, rfl, fun hl => addLog_eq_append _ _ _ _ hl⟩

/-- Witness for C5 at the initial state (empty URL) with a timestamp. -/
theorem invalid_start_only_logs_witness :
    validUrl initialState.videoUrl = false ∧
    (handleStartBoost initialState "09:00:00").status = initialState.status ∧
    (handleStartBoost initialState "09:00:00").currentViews = initialState.currentViews ∧
    (handleStartBoost initialState "09:00:00").progress = initialState.progress ∧
    (handleStartBoost initialState "09:00:00").analysis = initialState.analysis ∧
    (handleStartBoost initialState "09:00:00").targetViews = initialState.targetViews ∧
    (handleStartBoost initialState "09:00:00").logs =
      addLog initialState.logs "09:00:00"
        "Invalid source: Please provide a valid TikTok video link." LogType.error ∧
    (initialState.logs.length ≤ 99 → (handleStartBoost initialState "09:00:00").logs =
      initialState.logs ++ [{ timestamp := "09:00:00"
                              message := "Invalid source: Please provide a valid TikTok video link."
                              type := LogType.error }]) :=
  ⟨by decide, invalid_start_only_logs initialState "09:00:00" (by decide)⟩

/-- C6: whenever the service call throws or its response body is
malformed/unparseable (both reach the `catch` branch), `analyze` returns
exactly the canned fallback: score 0, three fixed recommendation strings,
estimated reach `N/A`; being a total function it propagates no failure. -/
theorem analyze_failure_returns_fallback :
    (∀ (videoUrl err : String),
      analyzeTikTokContent videoUrl (Except.error err) = fallbackAnalysis) ∧
    fallbackAnalysis.score = 0 ∧
    fallbackAnalysis.recommendations.length = 3 ∧
    fallbackAnalysis.estimatedReach = "N/A" :=
  ⟨fun _ _ => rfl, rfl, rfl, rfl⟩

/-- C7: a reset from any state returns to `IDLE` with zeroed counters,
cleared analysis, a log that holds exactly the one fresh informational
entry, and no subsequent tick changes the state (the interval only runs
while `PROCESSING`). -/
theorem reset_clears_state :
    ∀ (s : AppState) (now : String) (r : TickRand),
      (handleReset s now).status = BoostStatus.IDLE ∧
      (handleReset s now).currentViews = 0 ∧
      (handleReset s now).progress = 0 ∧
      (handleReset s now).analysis = none ∧
      (handleReset s now).logs =
        [{ timestamp := now
           message := "Dashboard synchronized. Ready for next campaign."
           type := LogType.info }] ∧
      tick (handleReset s now) r = some (handleReset s now) := by
  intro s now r
  refine ⟨rfl, rfl, rfl, rfl, rfl, ?_⟩
  exact tick_not_processing r (fun hc => nomatch hc)

/-- C8: `addLog` keeps the buffer at no more than 100 entries, the result
is a suffix of the appended list (so only the oldest entries are evicted),
below the bound it is a plain append, at the bound exactly the oldest
entry is dropped, and every reachable state has at most 100 log entries. -/
theorem log_history_bounded :
    (∀ (logs : List LogEntry) (now m : String) (t : LogType),
        (addLog logs now m t).length ≤ 100 ∧
        (addLog logs now m t) <:+ (logs ++ [{ timestamp := now, message := m, type := t }]) ∧
        (logs.length ≤ 99 →
          addLog logs now m t = logs ++ [{ timestamp := now, message := m, type := t }]) ∧
        (logs.length = 100 →
          addLog logs now m t =
            logs.tail ++ [{ timestamp := now, message := m, type := t }])) ∧
    (∀ s, Reachable s → s.logs.length ≤ 100) := by
  refine ⟨?_, fun s h => (reachable_inv h).2.1⟩
  intro logs now m t
  refine ⟨addLog_length_le _ _ _ _, addLog_isSuffix _ _ _ _, addLog_eq_append _ _ _ _, ?_⟩
  intro hlen
  simp only [addLog, List.length_append, List.length_singleton, hlen]
  rw [show (100 + 1 - 100 : Nat) = 1 from rfl,
    List.drop_append_of_le_length (by omega), List.drop_one]

/-- Witness for C8: a fresh append, an append at the eviction bound, and
the initial reachable state. -/
theorem log_history_bounded_witness :
    ((addLog [] "10:00:00" "hello" LogType.info).length ≤ 100 ∧
      addLog [] "10:00:00" "hello" LogType.info =
        [] ++ [{ timestamp := "10:00:00", message := "hello", type := LogType.info }]) ∧
    (addLog (List.replicate 100 { timestamp := "09:59:59", message := "boot", type := LogType.info })
        "10:00:01" "world" LogType.info =
      (List.replicate 100
            ({ timestamp := "09:59:59", message := "boot", type := LogType.info } : LogEntry)).tail ++
        [{ timestamp := "10:00:01", message := "world", type := LogType.info }]) ∧
    initialState.logs.length ≤ 100 :=
  ⟨⟨(log_history_bounded.1 [] "10:00:00" "hello" LogType.info).1,
    (log_history_bounded.1 [] "10:00:00" "hello" LogType.info).2.2.1 (by decide)⟩,
   (log_history_bounded.1 _ "10:00:01" "world" LogType.info).2.2.2 (by simp),
   log_history_bounded.2 initialState Reachable.init⟩

/-- C9: every reachable state has status `IDLE`, `PROCESSING` or
`COMPLETED`; the `ERROR` member of the enum is never assigned. -/
theorem status_never_error :
    ∀ s, Reachable s →
      s.status = BoostStatus.IDLE ∨ s.status = BoostStatus.PROCESSING ∨
        s.status = BoostStatus.COMPLETED := by
  intro s h
  have h3 := (reachable_inv h).2.2.1
  cases hs : s.status with
  | IDLE => exact Or.inl rfl
  | PROCESSING => exact Or.inr (Or.inl rfl)
  | COMPLETED => exact Or.inr (Or.inr rfl)
  | ERROR => exact absurd hs h3

/-- Witness for C9 at the initial state. -/
theorem status_never_error_witness :
    initialState.status = BoostStatus.IDLE ∨
      initialState.status = BoostStatus.PROCESSING ∨
      initialState.status = BoostStatus.COMPLETED :=
  status_never_error initialState Reachable.init

/-- C10: in every reachable state the active server is one of the five
registry nodes, the rotation candidate list has exactly four elements, and
every drawn index below four selects a defined registry node different
from the active one, so the rotation access is never out of range. -/
theorem active_node_always_in_registry :
    ∀ s, Reachable s →
      s.activeServer ∈ SERVER_NODES ∧
      (availableServers s).length = 4 ∧
      (∀ i, i < 4 →
        ∃ n, (availableServers s)[i]? = some n ∧ n ∈ SERVER_NODES ∧
          n.id ≠ s.activeServer.id) := by
  intro s h
  have hact := (reachable_inv h).1
  have hlen := availableServers_length (s := s) hact
  refine ⟨hact, hlen, ?_⟩
  intro i hi
  have hlt : i < (availableServers s).length := by omega
  have hget := List.getElem?_eq_getElem hlt
  exact ⟨_, hget, mem_of_avail hget, id_ne_of_avail hget⟩

/-- Witness for C10 at the initial state. -/
theorem active_node_always_in_registry_witness :
    initialState.activeServer ∈ SERVER_NODES ∧
    (availableServers initialState).length = 4 ∧
    (∀ i, i < 4 →
      ∃ n, (availableServers initialState)[i]? = some n ∧ n ∈ SERVER_NODES ∧
        n.id ≠ initialState.activeServer.id) :=
  active_node_always_in_registry initialState Reachable.init
